import Mathlib

/-!
Verification of the agent runtime of the Autonomous-Agent repository.

The definitions below are a shallow embedding of `src/agent.py`,
`src/handlers.py` and `src/main.py`:

* timestamps (`datetime.now()`) are modelled as `Nat` instants supplied
  explicitly by the environment;
* `asyncio` suspension points disappear: each Python coroutine becomes a
  pure Lean function on explicit state, and one iteration of a Python
  loop becomes one step of a Lean recursion driven by an explicit event
  list;
* a Python `try/except` around a call is modelled by letting the callee
  return an `Except`/outcome value that the caller inspects;
* Python `Queue` contents are modelled as a `List` whose head is the
  oldest element.
-/

/-- The `Message` dataclass of `src/agent.py` (lines 19-41): fields
`type`, `content`, optional `metadata` (a string-keyed mapping, modelled
as an association list) and `created_at` (a timestamp, modelled as a
`Nat` instant). -/
structure Message where
  type : String
  content : String
  metadata : Option (List (String × String)) := none
  created_at : Nat
deriving DecidableEq

/-- Construction of a `Message` without an explicit `created_at`
argument.  In the source, `created_at: datetime = datetime.now()` is a
dataclass default: Python evaluates the default expression ONCE, when
the class body of `Message` is executed at import time, and reuses that
single value for every later construction.  `classDefTime` is the
instant at which the class body was evaluated and `constructionTime` is
the instant at which this particular `Message` is constructed; faithful
to the source, the latter plays no role in the result. -/
def Message.construct (classDefTime _constructionTime : Nat)
    (ty content : String) (metadata : Option (List (String × String))) : Message :=
  { type := ty, content := content, metadata := metadata, created_at := classDefTime }

/-- The `MessageBox` of `src/agent.py` (lines 44-88): a FIFO queue of
messages.  The underlying `Queue` is modelled as a list whose head is
the oldest message; the `asyncio.Lock` serialises the operations, which
the embedding models by making each operation one atomic function. -/
structure MessageBox where
  queue : List Message
deriving DecidableEq

/-- `MessageBox.__init__`: the box starts empty. -/
def MessageBox.new : MessageBox := ⟨[]⟩

/-- `MessageBox.put`: enqueue at the tail. -/
def MessageBox.put (b : MessageBox) (m : Message) : MessageBox :=
  ⟨b.queue ++ [m]⟩

/-- `MessageBox.get` (lines 66-78): if the queue is not empty, dequeue
and return the head message; otherwise return `None`.  The function is
total: it never blocks and never fails. -/
def MessageBox.get (b : MessageBox) : Option Message × MessageBox :=
  match b.queue with
  | [] => (none, b)
  | m :: rest => (some m, ⟨rest⟩)

/-- `MessageBox.is_empty`. -/
def MessageBox.is_empty (b : MessageBox) : Bool :=
  b.queue.isEmpty

/-- `MessageBox.clear` (lines 84-88): discard all buffered messages. -/
def MessageBox.clear (_b : MessageBox) : MessageBox :=
  ⟨[]⟩

/-- A sequence of `put` calls, in list order. -/
def putMany : MessageBox → List Message → MessageBox
  | b, [] => b
  | b, m :: rest => putMany (b.put m) rest

/-- A sequence of `n` `get` calls, returning the results in call order
together with the final box. -/
def getMany : MessageBox → Nat → List (Option Message) × MessageBox
  | b, 0 => ([], b)
  | b, n + 1 =>
    let r := b.get
    let rs := getMany r.2 n
    (r.1 :: rs.1, rs.2)

/-- A registered `Handler` (lines 91-115): `can_handle` and `handle` are
arbitrary coroutines, either of which may raise.  `can_handle` returns
`Except.error ()` when it raises and `Except.ok b` when it returns `b`;
`handle`'s own side effects are external (printing, web3 calls - the
handlers in `src/handlers.py` never touch the agent's boxes), so only
its raise/return outcome is observable to the dispatch loop. -/
structure HandlerM where
  canHandle : Message → Except Unit Bool
  handle : Message → Except Unit Unit

/-- Outcome of the dispatch loop body of `Agent.process_message`
(lines 260-266) for one handler: the `try` block either skips the
handler (predicate false), runs `handle`, or is aborted by an exception
from `can_handle` or from `handle`; in every case the exception is
caught and the `for` loop continues. -/
inductive DispatchStep where
  | skipped
  | handled
  | handledWithError
  | canHandleError
deriving DecidableEq

/-- One iteration of the `for handler in self.handlers` loop of
`Agent.process_message`: evaluate `can_handle` inside the `try`; if it
raises, catch and move on; if it returns `True`, invoke `handle`,
catching any exception it raises. -/
def dispatchOne (h : HandlerM) (m : Message) : DispatchStep :=
  match h.canHandle m with
  | Except.error _ => DispatchStep.canHandleError
  | Except.ok false => DispatchStep.skipped
  | Except.ok true =>
    match h.handle m with
    | Except.ok _ => DispatchStep.handled
    | Except.error _ => DispatchStep.handledWithError

/-- `Agent.process_message` (lines 253-266): pass the message to every
registered handler in registration order; the per-handler `try/except`
means no handler's outcome can stop the loop, so every handler
contributes exactly one `DispatchStep`, in registration order. -/
def Agent.process_message (handlers : List HandlerM) (m : Message) : List DispatchStep :=
  match handlers with
  | [] => []
  | h :: rest => dispatchOne h m :: Agent.process_message rest m

/-- `handle` was actually invoked on this step (it ran, whether or not
it then raised). -/
def handlerInvoked (s : DispatchStep) : Bool :=
  match s with
  | DispatchStep.handled => true
  | DispatchStep.handledWithError => true
  | _ => false

/-- The handler's `can_handle` returned `True` (no exception). -/
def canHandleOk (h : HandlerM) (m : Message) : Bool :=
  match h.canHandle m with
  | Except.ok true => true
  | _ => false

/-- Outcome of one call to `Behavior.execute` as seen by the `try`
block of `Behavior._run` (lines 156-173): either it returns an optional
message, or it raises an exception. -/
inductive ExecOutcome where
  | ret : Option Message → ExecOutcome
  | exn : ExecOutcome
deriving DecidableEq

/-- One iteration of the `while self._running` loop of `Behavior._run`:
`now` is the value of the first `datetime.now()` call (line 161), `fin`
is the value the second `datetime.now()` call (line 167) would return
after `execute` finishes, and `outcome` says what `execute` does if it
is invoked on this iteration. -/
structure LoopEvent where
  now : Nat
  fin : Nat
  outcome : ExecOutcome
deriving DecidableEq

/-- The timing state of a `Behavior` (lines 121-131): its `interval`
and its `last_execution` timestamp (initialised to the construction
instant). -/
structure BehaviorState where
  interval : Nat
  lastExecution : Nat
deriving DecidableEq

/-- One iteration of `Behavior._run`: if `now` has reached
`last_execution + interval`, `execute` is invoked; on a normal return
`last_execution` is set to the post-execution instant `fin` (line 167;
the returned message, if any, is put on the attached outbox - delivery
is modelled by `behaviorEmit` below); if `execute` raises, the
`except Exception` branch (lines 171-173) only logs and sleeps, so
`last_execution` is NOT advanced.  The result records the new state and,
when `execute` was invoked, the invocation's start time together with
whether it completed without raising. -/
def behaviorIter (st : BehaviorState) (e : LoopEvent) : BehaviorState × Option (Nat × Bool) :=
  if st.lastExecution + st.interval ≤ e.now then
    match e.outcome with
    | ExecOutcome.ret _ => ({ st with lastExecution := e.fin }, some (e.now, true))
    | ExecOutcome.exn => (st, some (e.now, false))
  else (st, none)

/-- Run the `_run` loop over a list of iteration events, collecting the
invocations of `execute`: each entry is the invocation's start time and
whether it completed normally. -/
def behaviorRun : BehaviorState → List LoopEvent → List (Nat × Bool)
  | _, [] => []
  | st, e :: es =>
    match behaviorIter st e with
    | (st1, some r) => r :: behaviorRun st1 es
    | (st1, none) => behaviorRun st1 es

/-- Well-formedness of an event list: wall time only moves forward.
`c` is a lower bound on the first iteration's clock reading; within an
iteration the post-execution instant is not before the pre-check
instant, and the next iteration starts no earlier (the loop sleeps
between iterations). -/
def eventsMono : Nat → List LoopEvent → Bool
  | _, [] => true
  | c, e :: es => decide (c ≤ e.now) && decide (e.now ≤ e.fin) && eventsMono e.fin es

/-- The gap property exactly as the claim states it: EVERY pair of
consecutive invocations of `execute` is at least `T` apart, including
pairs whose first invocation raised. -/
def claimGaps (T : Nat) : List (Nat × Bool) → Bool
  | [] => true
  | [_] => true
  | (t1, _) :: (t2, ok2) :: rest =>
    decide (t1 + T ≤ t2) && claimGaps T ((t2, ok2) :: rest)

/-- The gap property the code actually provides: an invocation that
COMPLETED NORMALLY is followed by a gap of at least `T` before the next
invocation; after a raising invocation no gap is promised. -/
def gapsAfterSuccess (T : Nat) : List (Nat × Bool) → Bool
  | [] => true
  | [_] => true
  | (t1, ok1) :: (t2, ok2) :: rest =>
    (!ok1 || decide (t1 + T ≤ t2)) && gapsAfterSuccess T ((t2, ok2) :: rest)

/-- The per-behavior runtime bookkeeping an `Agent` sees: the timing
state plus the `_running` flag that `Behavior.start`/`Behavior.stop`
toggle. -/
structure BehaviorHandle where
  state : BehaviorState
  running : Bool
deriving DecidableEq

/-- The `Agent` of `src/agent.py` (lines 186-352), restricted to the
fields its lifecycle methods read and write: name, the two boxes, the
registered handlers and behaviors, and the `running` flag. -/
structure AgentState where
  name : String
  inbox : MessageBox
  outbox : MessageBox
  handlers : List HandlerM
  behaviors : List BehaviorHandle
  running : Bool

/-- `Agent.stop_behaviors` (lines 247-251): stop every registered
behavior (clear its `_running` flag). -/
def Agent.stop_behaviors (a : AgentState) : AgentState :=
  { a with behaviors := a.behaviors.map (fun b => { b with running := false }) }

/-- `Agent.stop` (lines 319-342).  If the agent is not running, return
immediately (line 324-325).  Otherwise clear `running`, stop all
behaviors, process every message still in the inbox through
`process_message` (the dispatch outcomes are returned alongside the
final state), and finally `clear` both boxes. -/
def Agent.stop (a : AgentState) : AgentState × List (List DispatchStep) :=
  if a.running then
    let a1 := Agent.stop_behaviors { a with running := false }
    let steps := a1.inbox.queue.map (Agent.process_message a1.handlers)
    ({ a1 with inbox := a1.inbox.clear, outbox := a1.outbox.clear }, steps)
  else (a, [])

/-- The four message boxes touched by one iteration of the forwarding
loop of `connect_agents` in `src/main.py` (lines 20-53): `out1`/`in1`
are agent1's outbox and inbox queues, `out2`/`in2` agent2's. -/
structure TwoAgentBoxes where
  out1 : List Message
  in1 : List Message
  out2 : List Message
  in2 : List Message
deriving DecidableEq

/-- The inner `while not outbox.is_empty()` forwarding loop: repeatedly
`get` from the source box and `put` onto the destination box until the
source is empty.  Returns the final (source, destination) queues. -/
def forwardAllQ : List Message → List Message → List Message × List Message
  | [], dst => ([], dst)
  | m :: rest, dst => forwardAllQ rest (dst ++ [m])

/-- One iteration of the `while agent1.is_running and agent2.is_running`
loop of `connect_agents`: first drain agent1's outbox into agent2's
inbox, then drain agent2's outbox into agent1's inbox. -/
def connect_agents_tick (s : TwoAgentBoxes) : TwoAgentBoxes :=
  let d1 := forwardAllQ s.out1 s.in2
  let d2 := forwardAllQ s.out2 s.in1
  { out1 := d1.1, in1 := d2.2, out2 := d2.1, in2 := d1.2 }

/-- The `CryptoTransferHandler` of `src/handlers.py` (lines 48-186),
restricted to the attributes `__init__` stores.  Note the instance
carries NO mutable bookkeeping: `__init__` assigns only configuration
(addresses, key, amount), and `handle` assigns to no attribute at
all. -/
structure CryptoTransferHandler where
  contract_address : String
  source_address : String
  target_address : String
  private_key : String
  transfer_amount : Nat
deriving DecidableEq

/-- The external chain state one invocation of `handle` observes:
the `balanceOf` call's result (`none` when `_get_balance` catches an
exception and returns `None`, lines 180-186) and the token's
`decimals`. -/
structure ChainEnv where
  balanceOf : Option Nat
  decimals : Nat
deriving DecidableEq

/-- An ERC20 transfer submitted to the chain. -/
structure TransferTx where
  toAddress : String
  amount : Nat
deriving DecidableEq

/-- `CryptoTransferHandler.handle` (lines 111-168), summarised by the
transaction it submits: fetch the source balance (give up if the fetch
failed), scale the transfer amount by `10 ** decimals`, give up if the
balance does not cover it, otherwise build, sign and send the transfer.
No attribute of the handler is consulted or written beyond the
configuration fields. -/
def CryptoTransferHandler.handle (h : CryptoTransferHandler) (env : ChainEnv) :
    Option TransferTx :=
  match env.balanceOf with
  | none => none
  | some balance =>
    let transfer_amount_wei := h.transfer_amount * 10 ^ env.decimals
    if balance < transfer_amount_wei then none
    else some { toAddress := h.target_address, amount := transfer_amount_wei }

/-- `handle` together with the handler instance as it stands after the
invocation has submitted its transaction (and is still awaiting the
receipt): since `handle` writes no attribute, the instance is returned
unchanged - the class has no in-flight flag that an outstanding
invocation could set. -/
def CryptoTransferHandler.handleWithState (h : CryptoTransferHandler) (env : ChainEnv) :
    Option TransferTx × CryptoTransferHandler :=
  (CryptoTransferHandler.handle h env, h)

/-- A `Behavior` object as `Agent.register_behavior` sees it: its
timing state plus the `_agent_outbox` attribute.  Outboxes are
identified by the owning agent's identity (a `Nat`); `none` models the
attribute not being set yet (`hasattr` false in `_run`, line 165). -/
structure BehaviorObj where
  state : BehaviorState
  agentOutbox : Option Nat
deriving DecidableEq

/-- An agent as seen by `register_behavior`: its identity (standing for
its `self.outbox` reference) and its `behaviors` list. -/
structure AgentRB where
  id : Nat
  behaviors : List BehaviorObj
deriving DecidableEq

/-- `Agent.register_behavior` (lines 230-239): set the behavior's
`_agent_outbox` to THIS agent's outbox (overwriting any previous
value), and append the behavior to the agent's list.  Returns the
updated agent and the mutated behavior object. -/
def AgentRB.register_behavior (a : AgentRB) (b : BehaviorObj) : AgentRB × BehaviorObj :=
  let b1 := { b with agentOutbox := some a.id }
  ({ a with behaviors := a.behaviors ++ [b1] }, b1)

/-- Delivery of a message produced by `Behavior.execute` inside `_run`
(lines 163-166): if `_agent_outbox` is set, `put` the message on that
outbox; otherwise the message is dropped.  `outboxes` maps each agent
identity to its outbox queue. -/
def behaviorEmit (b : BehaviorObj) (msg : Message) (outboxes : Nat → List Message) :
    Nat → List Message :=
  match b.agentOutbox with
  | none => outboxes
  | some i => fun j => if j = i then outboxes j ++ [msg] else outboxes j

/-- The message of the bridging scenario in the specification:
`Message{type:"default", content:"sun moon"}`. -/
def msgSunMoon : Message :=
  { type := "default", content := "sun moon", metadata := none, created_at := 0 }

/-- An agent that was never started: `running` is false and a message
is still queued in its inbox. -/
def idleAgent : AgentState :=
  { name := "A", inbox := ⟨[msgSunMoon]⟩, outbox := MessageBox.new,
    handlers := [], behaviors := [], running := false }

/-- A running agent with one message in each box and one started
behavior. -/
def runningAgent : AgentState :=
  { name := "B", inbox := ⟨[msgSunMoon]⟩, outbox := ⟨[msgSunMoon]⟩,
    handlers := [], behaviors := [{ state := { interval := 2, lastExecution := 0 }, running := true }],
    running := true }

/-- A concrete `CryptoTransferHandler` configuration. -/
def sampleCryptoHandler : CryptoTransferHandler :=
  { contract_address := "0xc0ffee", source_address := "0xsource",
    target_address := "0xtarget", private_key := "key", transfer_amount := 1 }

/-- A chain state with ample balance for `sampleCryptoHandler`. -/
def sampleChain : ChainEnv := { balanceOf := some 100, decimals := 0 }

theorem putMany_queue (ms : List Message) :
    ∀ l : List Message, putMany ⟨l⟩ ms = ⟨l ++ ms⟩ := by
  induction ms with
  | nil => intro l; simp [putMany]
  | cons m rest ih => intro l; simp [putMany, MessageBox.put, ih]

theorem getMany_exact : ∀ ms : List Message, getMany ⟨ms⟩ ms.length = (ms.map some, ⟨[]⟩) := by
  intro ms
  induction ms with
  | nil => simp [getMany]
  | cons m rest ih => simp [getMany, MessageBox.get, ih]

/-- C1: messages leave a `MessageBox` in exactly the order they were
inserted.  In general, after any sequence of `put` calls on a box whose
queue holds `prior`, draining the box returns `prior ++ ms` in order;
for the box as `__init__` creates it (no prior content), the i-th `get`
of `ms.length` gets after `ms.length` puts returns exactly the i-th
message put. -/
theorem messagebox_fifo :
    (∀ prior ms : List Message,
      (getMany (putMany ⟨prior⟩ ms) (prior.length + ms.length)).1
        = (prior ++ ms).map some) ∧
    ∀ ms : List Message,
      (getMany (putMany MessageBox.new ms) ms.length).1 = ms.map some := by
  constructor
  · intro prior ms
    rw [putMany_queue]
    have h := getMany_exact (prior ++ ms)
    rw [List.length_append] at h
    rw [h]
  · intro ms
    show (getMany (putMany ⟨[]⟩ ms) ms.length).1 = ms.map some
    rw [putMany_queue]
    simpa using congrArg Prod.fst (getMany_exact ms)

/-- C6: `get` on an empty `MessageBox` returns `none`, leaving the box
unchanged - the function is total, so it can neither block nor raise -
and on a non-empty box it removes and returns the head (oldest)
message. -/
theorem messagebox_get_total :
    (∀ b : MessageBox, b.is_empty = true → b.get = (none, b)) ∧
    ∀ (m : Message) (rest : List Message),
      MessageBox.get ⟨m :: rest⟩ = (some m, ⟨rest⟩) := by
  constructor
  · intro b h
    cases b with
    | mk queue =>
      cases queue with
      | nil => rfl
      | cons m rest => simp [MessageBox.is_empty] at h
  · intro m rest
    rfl

/-- Witness for C6 at the box `__init__` creates. -/
theorem messagebox_get_total_witness :
    MessageBox.new.is_empty = true ∧ MessageBox.get MessageBox.new = (none, MessageBox.new) :=
  ⟨rfl, messagebox_get_total.1 MessageBox.new rfl⟩

theorem handlerInvoked_dispatchOne (h : HandlerM) (m : Message) :
    handlerInvoked (dispatchOne h m) = canHandleOk h m := by
  rcases hc : h.canHandle m with e | b
  · simp [dispatchOne, canHandleOk, handlerInvoked, hc]
  · cases b
    · simp [dispatchOne, canHandleOk, handlerInvoked, hc]
    · rcases hh : h.handle m with e2 | u
      · simp [dispatchOne, canHandleOk, handlerInvoked, hc, hh]
      · simp [dispatchOne, canHandleOk, handlerInvoked, hc, hh]

/-- C2: `process_message` gives every registered handler its own
dispatch step, in registration order, and `handle` is invoked on
exactly those handlers whose `can_handle` returned `True` - the
position-wise characterisation shows that neither an exception in one
handler's `can_handle` nor one in its `handle` affects whether any
other handler is tried on the same message. -/
theorem process_message_runs_all_matching (handlers : List HandlerM) (m : Message) :
    (Agent.process_message handlers m).map handlerInvoked
        = handlers.map (fun h => canHandleOk h m) ∧
    (Agent.process_message handlers m).length = handlers.length := by
  induction handlers with
  | nil => exact ⟨rfl, rfl⟩
  | cons h rest ih =>
    constructor
    · simp [Agent.process_message, handlerInvoked_dispatchOne, ih.1]
    · simp [Agent.process_message, ih.2]

/-- C4 (code bug): the dataclass default for `created_at` is evaluated
once, at class-definition time; two `Message`s constructed at the
distinct instants 5 and 9 (class body evaluated at instant 0) receive
the SAME `created_at`, namely the class-definition instant 0, not
their construction times. -/
theorem message_created_at_class_level_default :
    (Message.construct 0 5 "a" "x" none).created_at
        = (Message.construct 0 9 "b" "y" none).created_at ∧
    (Message.construct 0 5 "a" "x" none).created_at = 0 ∧
    (5 : Nat) ≠ 9 :=
  ⟨rfl, rfl, by decide⟩

theorem forwardAllQ_eq (src : List Message) :
    ∀ dst : List Message, forwardAllQ src dst = ([], dst ++ src) := by
  induction src with
  | nil => intro dst; simp [forwardAllQ]
  | cons m rest ih => intro dst; simp [forwardAllQ, ih]

/-- C7: in the bridge scenario (agent1's outbox holds exactly the
"sun moon" message, everything else empty), one tick of
`connect_agents` moves that message to agent2's inbox and leaves
agent1's outbox empty; in general one tick fully drains each agent's
outbox, appending the messages in order to the peer's inbox. -/
theorem connect_agents_tick_forwards :
    connect_agents_tick { out1 := [msgSunMoon], in1 := [], out2 := [], in2 := [] }
        = { out1 := [], in1 := [], out2 := [], in2 := [msgSunMoon] } ∧
    ∀ s : TwoAgentBoxes,
      connect_agents_tick s
        = { out1 := [], in1 := s.in1 ++ s.out2, out2 := [], in2 := s.in2 ++ s.out1 } := by
  constructor
  · simp [connect_agents_tick, forwardAllQ]
  · intro s
    simp [connect_agents_tick, forwardAllQ_eq]

theorem stop_of_not_running (a : AgentState) (h : a.running = false) :
    Agent.stop a = (a, []) := by
  simp [Agent.stop, h]

/-- C9: calling `stop` on an agent whose `running` flag is false
returns immediately, leaving the whole agent state - inbox and outbox
included - unchanged and processing no message. -/
theorem agent_stop_not_running_frame (a : AgentState) (h : a.running = false) :
    Agent.stop a = (a, []) :=
  stop_of_not_running a h

/-- Witness for C9: a never-started agent with one queued inbox message
keeps it across `stop`. -/
theorem agent_stop_not_running_frame_witness :
    idleAgent.running = false ∧ Agent.stop idleAgent = (idleAgent, []) :=
  ⟨rfl, agent_stop_not_running_frame idleAgent rfl⟩

/-- C5 (amended): for an agent that IS running, `stop` leaves the agent
stopped with both boxes empty, and a second `stop` is a no-op (the
claim's universal over all agents fails: on a never-started agent with
queued messages `stop` is a pure no-op and the boxes stay non-empty,
see the counterexample). -/
theorem agent_stop_idempotent_running (a : AgentState) (h : a.running = true) :
    Agent.stop (Agent.stop a).1 = ((Agent.stop a).1, []) ∧
    (Agent.stop a).1.running = false ∧
    (Agent.stop a).1.inbox = MessageBox.new ∧
    (Agent.stop a).1.outbox = MessageBox.new := by
  have h1 : (Agent.stop a).1.running = false := by
    simp [Agent.stop, h, Agent.stop_behaviors]
  refine ⟨?_, h1, ?_, ?_⟩
  · exact stop_of_not_running _ h1
  · simp [Agent.stop, h, Agent.stop_behaviors, MessageBox.clear, MessageBox.new]
  · simp [Agent.stop, h, Agent.stop_behaviors, MessageBox.clear, MessageBox.new]

/-- Witness for the amended C5, on a running agent with non-empty
boxes and a started behavior. -/
theorem agent_stop_idempotent_running_witness :
    runningAgent.running = true ∧
    (Agent.stop (Agent.stop runningAgent).1 = ((Agent.stop runningAgent).1, []) ∧
     (Agent.stop runningAgent).1.running = false ∧
     (Agent.stop runningAgent).1.inbox = MessageBox.new ∧
     (Agent.stop runningAgent).1.outbox = MessageBox.new) :=
  ⟨rfl, agent_stop_idempotent_running runningAgent rfl⟩

/-- Counterexample to C5 as stated: `idleAgent` (never started,
`running` false, one message queued in its inbox) still holds that
message after `stop` is called twice in a row, so "for every Agent ...
both its inbox and outbox empty" is false. -/
theorem agent_stop_boxes_not_emptied :
    (Agent.stop (Agent.stop idleAgent).1).1.inbox = ⟨[msgSunMoon]⟩ ∧
    (⟨[msgSunMoon]⟩ : MessageBox) ≠ MessageBox.new := by
  constructor
  · rfl
  · decide

/-- C8 (amended): `CryptoTransferHandler.handle` enforces no
at-most-one-in-flight policy.  The instance carries no in-flight state,
so an invocation leaves the instance exactly as it found it, and a
re-entrant invocation started while a previous transfer is outstanding
behaves exactly like a fresh one: in particular it submits a second
transfer whenever the balance fetch succeeds and covers the scaled
transfer amount. -/
theorem crypto_handle_no_inflight_guard (h : CryptoTransferHandler) (env1 env2 : ChainEnv) :
    (CryptoTransferHandler.handleWithState h env1).2 = h ∧
    CryptoTransferHandler.handle (CryptoTransferHandler.handleWithState h env1).2 env2
        = CryptoTransferHandler.handle h env2 ∧
    ∀ balance : Nat, env2.balanceOf = some balance →
      h.transfer_amount * 10 ^ env2.decimals ≤ balance →
      (CryptoTransferHandler.handle
          (CryptoTransferHandler.handleWithState h env1).2 env2).isSome = true := by
  refine ⟨rfl, rfl, ?_⟩
  intro balance hb hle
  simp [CryptoTransferHandler.handleWithState, CryptoTransferHandler.handle, hb,
    Nat.not_lt.mpr hle]

/-- Witness for the amended C8 at a concrete configuration and chain
state with sufficient balance. -/
theorem crypto_handle_no_inflight_guard_witness :
    sampleChain.balanceOf = some 100 ∧
    sampleCryptoHandler.transfer_amount * 10 ^ sampleChain.decimals ≤ 100 ∧
    (CryptoTransferHandler.handle
        (CryptoTransferHandler.handleWithState sampleCryptoHandler sampleChain).2
        sampleChain).isSome = true :=
  ⟨rfl, by decide,
    (crypto_handle_no_inflight_guard sampleCryptoHandler sampleChain sampleChain).2.2
      100 rfl (by decide)⟩

/-- Counterexample to C8 as stated: invocation 1 of `handle` on
`sampleCryptoHandler` submits a transfer; while that transfer is still
outstanding (awaiting its receipt), a re-entrant invocation on the
instance exactly as invocation 1 left it submits a SECOND overlapping
transfer - nothing in the instance records that one is in flight. -/
theorem crypto_handle_reentrant_double_transfer :
    (CryptoTransferHandler.handle sampleCryptoHandler sampleChain).isSome = true ∧
    (CryptoTransferHandler.handle
        (CryptoTransferHandler.handleWithState sampleCryptoHandler sampleChain).2
        sampleChain).isSome = true := by
  constructor <;> decide

/-- C10: registering one `Behavior` instance with agent `a1` and then
with agent `a2` overwrites its `_agent_outbox` with `a2`'s outbox; a
message the behavior then produces is enqueued only on `a2`'s outbox,
and `a1`'s outbox is untouched. -/
theorem register_behavior_last_wins (a1 a2 : AgentRB) (b : BehaviorObj)
    (msg : Message) (outboxes : Nat → List Message) (hne : a1.id ≠ a2.id) :
    ((a2.register_behavior (a1.register_behavior b).2).2).agentOutbox = some a2.id ∧
    behaviorEmit (a2.register_behavior (a1.register_behavior b).2).2 msg outboxes a2.id
        = outboxes a2.id ++ [msg] ∧
    behaviorEmit (a2.register_behavior (a1.register_behavior b).2).2 msg outboxes a1.id
        = outboxes a1.id := by
  refine ⟨rfl, ?_, ?_⟩
  · simp [behaviorEmit, AgentRB.register_behavior]
  · simp [behaviorEmit, AgentRB.register_behavior, hne]

/-- A first agent for the double-registration witness. -/
def agentOne : AgentRB := { id := 0, behaviors := [] }

/-- A second agent for the double-registration witness. -/
def agentTwo : AgentRB := { id := 1, behaviors := [] }

/-- A behavior not yet registered with any agent. -/
def freshBehavior : BehaviorObj :=
  { state := { interval := 2, lastExecution := 0 }, agentOutbox := none }

/-- Witness for C10 with two concrete distinct agents. -/
theorem register_behavior_last_wins_witness :
    agentOne.id ≠ agentTwo.id ∧
    (((agentTwo.register_behavior (agentOne.register_behavior freshBehavior).2).2).agentOutbox
        = some agentTwo.id ∧
     behaviorEmit (agentTwo.register_behavior (agentOne.register_behavior freshBehavior).2).2
        msgSunMoon (fun _ => []) agentTwo.id
        = (fun _ => ([] : List Message)) agentTwo.id ++ [msgSunMoon] ∧
     behaviorEmit (agentTwo.register_behavior (agentOne.register_behavior freshBehavior).2).2
        msgSunMoon (fun _ => []) agentOne.id
        = (fun _ => ([] : List Message)) agentOne.id) :=
  ⟨by decide,
    register_behavior_last_wins agentOne agentTwo freshBehavior msgSunMoon
      (fun _ => []) (by decide)⟩

theorem behaviorRun_head_time_ge :
    ∀ (events : List LoopEvent) (st : BehaviorState) (c : Nat),
      eventsMono c events = true →
      ∀ (t : Nat) (ok : Bool) (rest : List (Nat × Bool)),
        behaviorRun st events = (t, ok) :: rest →
        st.lastExecution + st.interval ≤ t := by
  intro events
  induction events with
  | nil =>
    intro st c _ t ok rest hrun
    simp [behaviorRun] at hrun
  | cons e es ih =>
    intro st c hmono t ok rest hrun
    have hm := hmono
    simp only [eventsMono, Bool.and_eq_true, decide_eq_true_eq] at hm
    obtain ⟨⟨hc, hnf⟩, hes⟩ := hm
    by_cases hg : st.lastExecution + st.interval ≤ e.now
    · cases ho : e.outcome with
      | ret m =>
        simp [behaviorRun, behaviorIter, hg, ho] at hrun
        obtain ⟨⟨ht, _⟩, _⟩ := hrun
        omega
      | exn =>
        simp [behaviorRun, behaviorIter, hg, ho] at hrun
        obtain ⟨⟨ht, _⟩, _⟩ := hrun
        omega
    · simp [behaviorRun, behaviorIter, hg] at hrun
      exact ih st e.fin hes t ok rest hrun

theorem behaviorRun_gaps :
    ∀ (events : List LoopEvent) (st : BehaviorState) (c : Nat),
      eventsMono c events = true →
      gapsAfterSuccess st.interval (behaviorRun st events) = true := by
  intro events
  induction events with
  | nil => intro st c _; rfl
  | cons e es ih =>
    intro st c hmono
    have hm := hmono
    simp only [eventsMono, Bool.and_eq_true, decide_eq_true_eq] at hm
    obtain ⟨⟨hc, hnf⟩, hes⟩ := hm
    by_cases hg : st.lastExecution + st.interval ≤ e.now
    · cases ho : e.outcome with
      | exn =>
        have hrun : behaviorRun st (e :: es) = (e.now, false) :: behaviorRun st es := by
          simp [behaviorRun, behaviorIter, hg, ho]
        rw [hrun]
        have htail := ih st e.fin hes
        cases hl : behaviorRun st es with
        | nil => simp [gapsAfterSuccess]
        | cons p l2 =>
          cases p with
          | mk t2 ok2 =>
            rw [hl] at htail
            simp [gapsAfterSuccess, htail]
      | ret m =>
        have hrun : behaviorRun st (e :: es)
            = (e.now, true) :: behaviorRun { st with lastExecution := e.fin } es := by
          simp [behaviorRun, behaviorIter, hg, ho]
        rw [hrun]
        have htail := ih { st with lastExecution := e.fin } e.fin hes
        cases hl : behaviorRun { st with lastExecution := e.fin } es with
        | nil => simp [gapsAfterSuccess]
        | cons p l2 =>
          cases p with
          | mk t2 ok2 =>
            have hbound :=
              behaviorRun_head_time_ge es { st with lastExecution := e.fin } e.fin hes
                t2 ok2 l2 hl
            simp only at hbound
            rw [hl] at htail
            have hget : e.now + st.interval ≤ t2 := by omega
            simp [gapsAfterSuccess, htail, hget]
    · have hrun : behaviorRun st (e :: es) = behaviorRun st es := by
        simp [behaviorRun, behaviorIter, hg]
      rw [hrun]
      exact ih st e.fin hes

/-- C3 (amended): once started, a Behavior never invokes `execute`
before `interval` has elapsed since its previous invocation WHENEVER
that previous invocation completed without raising (each behavior's
`last_execution` is tracked independently and is advanced, to the
completion instant, on every non-raising invocation - including those
that return no message).  When `execute` raises, `last_execution` is
not advanced, so no such gap is promised after a failed attempt (see
the counterexample). -/
theorem behavior_interval_after_success (st : BehaviorState) (c : Nat)
    (events : List LoopEvent) (h : eventsMono c events = true) :
    gapsAfterSuccess st.interval (behaviorRun st events) = true :=
  behaviorRun_gaps events st c h

/-- A behavior with interval 10 created at instant 0. -/
def witnessBehavior : BehaviorState := { interval := 10, lastExecution := 0 }

/-- A well-formed run: a successful invocation, a skipped iteration, a
raising invocation, and a final successful invocation. -/
def witnessEvents : List LoopEvent :=
  [ { now := 12, fin := 13, outcome := ExecOutcome.ret (some msgSunMoon) },
    { now := 20, fin := 20, outcome := ExecOutcome.ret none },
    { now := 24, fin := 25, outcome := ExecOutcome.exn },
    { now := 26, fin := 26, outcome := ExecOutcome.ret none } ]

/-- Witness for the amended C3 on a concrete event list. -/
theorem behavior_interval_after_success_witness :
    eventsMono 0 witnessEvents = true ∧
    gapsAfterSuccess witnessBehavior.interval (behaviorRun witnessBehavior witnessEvents)
      = true :=
  ⟨by decide, behavior_interval_after_success witnessBehavior 0 witnessEvents (by decide)⟩

/-- The behavior of the C3 counterexample: interval 10, constructed at
instant 0. -/
def exnBehavior : BehaviorState := { interval := 10, lastExecution := 0 }

/-- The run of the C3 counterexample: `execute` raises at instant 10;
after the one-second error sleep the loop runs again at instant 11. -/
def exnEvents : List LoopEvent :=
  [ { now := 10, fin := 10, outcome := ExecOutcome.exn },
    { now := 11, fin := 11, outcome := ExecOutcome.ret none } ]

/-- Counterexample to C3 as stated: with interval 10, `execute` is
invoked at instant 10 and raises; `last_execution` is not advanced by
the `except` branch, so the very next loop iteration, at instant 11,
invokes `execute` again - only 1 time unit after the previous
invocation attempt, far less than the interval of 10. -/
theorem behavior_exception_breaks_interval :
    eventsMono 0 exnEvents = true ∧
    behaviorRun exnBehavior exnEvents = [(10, false), (11, true)] ∧
    claimGaps exnBehavior.interval (behaviorRun exnBehavior exnEvents) = false :=
  ⟨by decide, by decide, by decide⟩
